import Mathlib

/-!
Verification of the configuration-generation engine of `code-polish-pro`
(`bin/index.js`): the JSON-like data model, the deep-merge engine
(`eslintConfigGenerator.mergeConfigs`), the per-project-type rule functions,
the dependency catalog (`dependencyManager.getProjectDependencies`), the
ignore-list builder (`fileSystem.createEslintIgnore`), the Svelte
TypeScript auto-detection (`isSvelteUsingTypeScript`) and the
`package.json` update step of `setupProject`.

JavaScript values are modelled by the inductive type `JVal`; machine
floats do not occur in the configuration documents involved, so numbers
are modelled as integers.  JavaScript runtime errors (spreading a
non-iterable value in an array literal, `Object.entries(null)`, property
assignment on `null`/`undefined`) are modelled with `Except Unit`.
`undefined` is modelled as the absence of a key (`Option.none`), which is
how it arises in this program.  The `new Set(...)` deduplication is
modelled structurally; in this program the deduplicated arrays hold
primitive strings, for which JavaScript's SameValueZero equality agrees
with structural equality.
-/

namespace CodePolish

/-- A JavaScript/JSON value as manipulated by `bin/index.js`. -/
inductive JVal where
  | null : JVal
  | bool : Bool → JVal
  | num : Int → JVal
  | str : String → JVal
  | arr : List JVal → JVal
  | obj : List (String × JVal) → JVal

mutual

/-- Structural equality test for `JVal`. -/
def beqJVal : JVal → JVal → Bool
  | .null, .null => true
  | .bool a, .bool b => a == b
  | .num a, .num b => a == b
  | .str a, .str b => a == b
  | .arr a, .arr b => beqJList a b
  | .obj a, .obj b => beqJFields a b
  | _, _ => false

/-- Structural equality test for lists of `JVal`. -/
def beqJList : List JVal → List JVal → Bool
  | [], [] => true
  | x :: xs, y :: ys => beqJVal x y && beqJList xs ys
  | _, _ => false

/-- Structural equality test for object entry lists. -/
def beqJFields : List (String × JVal) → List (String × JVal) → Bool
  | [], [] => true
  | (k, v) :: xs, (l, w) :: ys => k == l && beqJVal v w && beqJFields xs ys
  | _, _ => false

end

mutual

theorem beqJVal_eq : ∀ (a b : JVal), beqJVal a b = true ↔ a = b
  | .null, .null => by simp [beqJVal]
  | .bool _, .bool _ => by simp [beqJVal]
  | .num _, .num _ => by simp [beqJVal]
  | .str _, .str _ => by simp [beqJVal]
  | .arr a, .arr b => by simp [beqJVal, beqJList_eq a b]
  | .obj a, .obj b => by simp [beqJVal, beqJFields_eq a b]
  | .null, .bool _ | .null, .num _ | .null, .str _ | .null, .arr _ | .null, .obj _
  | .bool _, .null | .bool _, .num _ | .bool _, .str _ | .bool _, .arr _ | .bool _, .obj _
  | .num _, .null | .num _, .bool _ | .num _, .str _ | .num _, .arr _ | .num _, .obj _
  | .str _, .null | .str _, .bool _ | .str _, .num _ | .str _, .arr _ | .str _, .obj _
  | .arr _, .null | .arr _, .bool _ | .arr _, .num _ | .arr _, .str _ | .arr _, .obj _
  | .obj _, .null | .obj _, .bool _ | .obj _, .num _ | .obj _, .str _ | .obj _, .arr _ => by
      simp [beqJVal]

theorem beqJList_eq : ∀ (a b : List JVal), beqJList a b = true ↔ a = b
  | [], [] => by simp [beqJList]
  | [], _ :: _ => by simp [beqJList]
  | _ :: _, [] => by simp [beqJList]
  | x :: xs, y :: ys => by
      simp [beqJList, beqJVal_eq x y, beqJList_eq xs ys]

theorem beqJFields_eq : ∀ (a b : List (String × JVal)),
    beqJFields a b = true ↔ a = b
  | [], [] => by simp [beqJFields]
  | [], _ :: _ => by simp [beqJFields]
  | _ :: _, [] => by simp [beqJFields]
  | (k, v) :: xs, (l, w) :: ys => by
      simp [beqJFields, beqJVal_eq v w, beqJFields_eq xs ys, and_assoc]

end

instance : DecidableEq JVal := fun a b => decidable_of_iff _ (beqJVal_eq a b)

/-- JavaScript truthiness of a value (`Boolean(v)`). -/
def truthy : JVal → Bool
  | .null => false
  | .bool b => b
  | .num n => decide (n ≠ 0)
  | .str s => decide (s ≠ "")
  | .arr _ => true
  | .obj _ => true

/-- Spreading a string in an array literal yields its characters as
one-character strings (`[...'xy'] === ['x','y']`). -/
def strChars (s : String) : List JVal :=
  s.data.map (fun c => JVal.str (String.mk [c]))

/-- `o[key] = v` on a JavaScript object: replace the value at an existing
key in place, otherwise append the new key at the end. -/
def setKey : List (String × JVal) → String → JVal → List (String × JVal)
  | [], k, v => [(k, v)]
  | (k', v') :: l, k, v =>
      if k' = k then (k, v) :: l else (k', v') :: setKey l k v

/-- `[...new Set(l)]`: keep the first occurrence of each element. -/
def jsDedup : List JVal → List JVal
  | [] => []
  | x :: xs => x :: jsDedup (xs.filter (fun y => decide (y ≠ x)))
termination_by l => l.length
decreasing_by
  simp only [List.length_cons]
  exact Nat.lt_succ_of_le (List.length_filter_le _ _)

/-- Spreading a value in an array literal (`[...v]`): arrays give their
elements, strings their characters, everything else raises a `TypeError`. -/
def iterSpread : JVal → Except Unit (List JVal)
  | .arr xs => .ok xs
  | .str s => .ok (strChars s)
  | _ => .error ()

/-- `[...(v || [])]` where `v` may be absent (`undefined`). -/
def iterSpreadOrEmpty (v : Option JVal) : Except Unit (List JVal) :=
  match v with
  | none => .ok []
  | some b => if truthy b then iterSpread b else .ok []

/-- Spreading a value in an object literal (`{...v}`): objects give their
entries, arrays index-keyed entries, strings index-keyed characters,
primitives (and `null`) nothing. -/
def jsObjSpread : JVal → List (String × JVal)
  | .obj fs => fs
  | .arr xs => xs.enum.map (fun p => (toString p.1, p.2))
  | .str s => s.data.enum.map (fun p => (toString p.1, JVal.str (String.mk [p.2])))
  | _ => []

/-- `{...v}` where `v` may be absent (`undefined`). -/
def jsObjSpreadOpt : Option JVal → List (String × JVal) :=
  fun v =>
    match v with
    | none => []
    | some v => jsObjSpread v

/-- `merged[key] || {}`: the base value for the recursive merge branch. -/
def objBase (v : Option JVal) : JVal :=
  match v with
  | none => .obj []
  | some b => if truthy b then b else .obj []

/-- Scalar character entries produced by `Object.entries` of a string,
written onto `merged` one by one (each is a plain overwrite). -/
def strEntriesFold (merged : List (String × JVal)) (s : String) :
    List (String × JVal) :=
  s.data.enum.foldl
    (fun m p => setKey m (toString p.1) (JVal.str (String.mk [p.2]))) merged

mutual

/-- `eslintConfigGenerator.mergeConfigs(baseConfig, existingConfig)`:
`merged = {...baseConfig}`, then for each entry of
`Object.entries(existingConfig)` dispatch on the INCOMING value's shape:
arrays are set-unioned with `[...(merged[key] || []), ...value]`, non-null
objects recurse with `merged[key] || {}`, everything else overwrites.
`Object.entries(null)` raises a `TypeError`. -/
def mergeConfigs (base incoming : JVal) : Except Unit JVal :=
  match incoming with
  | .obj fs => (mergeEntries (jsObjSpread base) fs).map JVal.obj
  | .arr xs => (mergeArrEntries (jsObjSpread base) 0 xs).map JVal.obj
  | .str s => .ok (.obj (strEntriesFold (jsObjSpread base) s))
  | .null => .error ()
  | _ => .ok (.obj (jsObjSpread base))
termination_by sizeOf incoming

/-- The `for (const [key, value] of Object.entries(existingConfig))` loop
body of `mergeConfigs`, over the entries of an object. -/
def mergeEntries (merged : List (String × JVal)) :
    List (String × JVal) → Except Unit (List (String × JVal))
  | [] => .ok merged
  | (k, v) :: rest =>
    match v with
    | .arr vs =>
        match iterSpreadOrEmpty (List.lookup k merged) with
        | .error e => .error e
        | .ok bs =>
            mergeEntries (setKey merged k (.arr (jsDedup (bs ++ vs)))) rest
    | .obj gs =>
        match mergeConfigs (objBase (List.lookup k merged)) (.obj gs) with
        | .error e => .error e
        | .ok m => mergeEntries (setKey merged k m) rest
    | v => mergeEntries (setKey merged k v) rest
termination_by l => sizeOf l

/-- The same loop over the index-keyed entries `Object.entries` produces
for an array value. -/
def mergeArrEntries (merged : List (String × JVal)) (i : Nat) :
    List JVal → Except Unit (List (String × JVal))
  | [] => .ok merged
  | v :: rest =>
    match v with
    | .arr vs =>
        match iterSpreadOrEmpty (List.lookup (toString i) merged) with
        | .error e => .error e
        | .ok bs =>
            mergeArrEntries (setKey merged (toString i) (.arr (jsDedup (bs ++ vs))))
              (i + 1) rest
    | .obj gs =>
        match mergeConfigs (objBase (List.lookup (toString i) merged)) (.obj gs) with
        | .error e => .error e
        | .ok m => mergeArrEntries (setKey merged (toString i) m) (i + 1) rest
    | v => mergeArrEntries (setKey merged (toString i) v) (i + 1) rest
termination_by l => sizeOf l

end

/-! ## Field access and update helpers

The configure functions of `eslintConfigGenerator` read and write fields
of the (always object-valued) configuration produced by `mergeConfigs`. -/

/-- `config.k`: property read; reading a missing property gives
`undefined`, modelled as `none`. -/
def getF (c : JVal) (k : String) : Option JVal :=
  match c with
  | .obj fs => List.lookup k fs
  | _ => none

/-- `config.k = v`: property write.  On a non-object the write is a
silent no-op for the emitted JSON document (sloppy-mode assignment on a
primitive does nothing; a named property on an array is dropped by
`JSON.stringify`). -/
def setF (c : JVal) (k : String) (v : JVal) : JVal :=
  match c with
  | .obj fs => .obj (setKey fs k v)
  | c => c

/-- Write several literal keys in order (the trailing literal keys of an
object literal such as `{...spread, k1: v1, k2: v2}`). -/
def setKeys (fs : List (String × JVal)) (kvs : List (String × JVal)) :
    List (String × JVal) :=
  kvs.foldl (fun m p => setKey m p.1 p.2) fs

/-- `config.outer.inner = v`: assignment through a nested property.
On a nested object it writes the field; on `null`/`undefined` it raises a
`TypeError`; on any other value it is a no-op for the emitted document. -/
def setInner (c : JVal) (outer inner : String) (v : JVal) : Except Unit JVal :=
  match getF c outer with
  | some (.obj fs) => .ok (setF c outer (.obj (setKey fs inner v)))
  | some .null => .error ()
  | none => .error ()
  | some _ => .ok c

/-- `config.k = [...(config.k || []), ...lits]` (used for `extends` and
`plugins` appends throughout the configure functions). -/
def appendField (c : JVal) (k : String) (lits : List JVal) : Except Unit JVal :=
  match iterSpreadOrEmpty (getF c k) with
  | .error e => .error e
  | .ok cur => .ok (setF c k (.arr (cur ++ lits)))

/-- `config.k = {...config.k, lit₁, lit₂, …}` (used for `rules` and
`settings` updates throughout the configure functions). -/
def spreadField (c : JVal) (k : String) (kvs : List (String × JVal)) : JVal :=
  setF c k (.obj (setKeys (jsObjSpreadOpt (getF c k)) kvs))

/-! ## Per-project-type rule functions (`eslintConfigGenerator.configure…`) -/

/-- `eslintConfigGenerator.configureReact(config, useTypeScript)`. -/
def configureReact (config : JVal) (useTypeScript : Bool) : Except Unit JVal :=
  match appendField config "extends"
      [.str "plugin:react/recommended", .str "plugin:react/jsx-runtime",
       .str "plugin:react-hooks/recommended", .str "plugin:jsx-a11y/recommended",
       .str "plugin:import/errors", .str "plugin:import/warnings"] with
  | .error e => .error e
  | .ok c1 =>
    match appendField c1 "plugins"
        [.str "react", .str "react-hooks", .str "jsx-a11y", .str "import"] with
    | .error e => .error e
    | .ok c2 =>
      let c3 := spreadField c2 "settings"
        [("react", .obj [("version", .str "detect")]),
         ("import/resolver", .obj [("node", .obj
            [("extensions", .arr [.str ".js", .str ".jsx", .str ".ts", .str ".tsx"])])])]
      let c4 := spreadField c3 "rules"
        [("react/prop-types", .str (if useTypeScript then "off" else "error")),
         ("react/jsx-uses-react", .str "error"),
         ("react/jsx-uses-vars", .str "error"),
         ("react-hooks/rules-of-hooks", .str "error"),
         ("react-hooks/exhaustive-deps", .str "warn"),
         ("import/no-unresolved", .str "error"),
         ("import/named", .str "error"),
         ("import/default", .str "error"),
         ("import/namespace", .str "error")]
      if useTypeScript then
        setInner c4 "parserOptions" "ecmaFeatures" (.obj [("jsx", .bool true)])
      else .ok c4

/-- `eslintConfigGenerator.configureNextjs(config)`. -/
def configureNextjs (config : JVal) : Except Unit JVal :=
  appendField config "extends" [.str "next/core-web-vitals"]

/-- `eslintConfigGenerator.configureNodejs(config)`. -/
def configureNodejs (config : JVal) : Except Unit JVal :=
  match appendField config "extends" [.str "plugin:node/recommended"] with
  | .error e => .error e
  | .ok c1 =>
    match appendField c1 "plugins" [.str "node"] with
    | .error e => .error e
    | .ok c2 =>
      .ok (spreadField c2 "rules"
        [("node/exports-style", .arr [.str "error", .str "module.exports"]),
         ("node/file-extension-in-import", .arr [.str "error", .str "always"]),
         ("node/prefer-global/buffer", .arr [.str "error", .str "always"]),
         ("node/prefer-global/console", .arr [.str "error", .str "always"]),
         ("node/prefer-global/process", .arr [.str "error", .str "always"]),
         ("node/prefer-global/url-search-params", .arr [.str "error", .str "always"]),
         ("node/prefer-global/url", .arr [.str "error", .str "always"]),
         ("node/prefer-promises/dns", .str "error"),
         ("node/prefer-promises/fs", .str "error")])

/-- `eslintConfigGenerator.configureSvelte(config, useTypeScript)`.  The
`useTypeScript` parameter is `Option Bool` because `generateConfig`
invokes this function with only one argument, leaving the parameter
`undefined` (`none`), which is falsy. -/
def configureSvelte (config : JVal) (useTypeScript : Option Bool) : JVal :=
  let c1 := setF config "extends"
      (.arr [.str "eslint:recommended", .str "plugin:svelte/recommended"])
  let c2 := setF c1 "parser" (.str "svelte-eslint-parser")
  let c3 := setF c2 "plugins" (.arr [.str "svelte"])
  let c4 := setF c3 "overrides"
      (.arr [.obj
        [("files", .arr [.str "*.svelte"]),
         ("parser", .str "svelte-eslint-parser"),
         ("parserOptions", .obj
           [("parser", .str (if useTypeScript.getD false then
               "@typescript-eslint/parser" else "espree"))])]])
  let c5 :=
    if useTypeScript.getD false then
      let ca := setF c4 "extends"
        (.arr [.str "eslint:recommended", .str "plugin:svelte/recommended",
               .str "plugin:@typescript-eslint/recommended"])
      let cb := setF ca "plugins"
        (.arr [.str "svelte", .str "@typescript-eslint"])
      setF cb "parserOptions"
        (.obj (setKeys (jsObjSpreadOpt (getF cb "parserOptions"))
          [("project", .str "./tsconfig.json"),
           ("extraFileExtensions", .arr [.str ".svelte"])]))
    else c4
  spreadField c5 "rules"
    [("svelte/no-unused-vars", .str "error"),
     ("no-unused-vars", .str "off"),
     ("@typescript-eslint/no-unused-vars",
       if useTypeScript.getD false then
         .arr [.str "error", .obj [("varsIgnorePattern", .str "^_"),
                                   ("argsIgnorePattern", .str "^_")]]
       else .str "off")]

/-- `eslintConfigGenerator.configureVue(config)`. -/
def configureVue (config : JVal) : Except Unit JVal :=
  match appendField config "extends" [.str "plugin:vue/vue3-recommended"] with
  | .error e => .error e
  | .ok c1 =>
    match appendField c1 "plugins" [.str "vue"] with
    | .error e => .error e
    | .ok c2 => .ok (setF c2 "parser" (.str "vue-eslint-parser"))

/-- `eslintConfigGenerator.configureAngular(config)`. -/
def configureAngular (config : JVal) : Except Unit JVal :=
  match appendField config "extends"
      [.str "plugin:@angular-eslint/recommended",
       .str "plugin:@angular-eslint/template/process-inline-templates"] with
  | .error e => .error e
  | .ok c1 => appendField c1 "plugins" [.str "@angular-eslint"]

/-- `eslintConfigGenerator.configureTypeScript(config)`. -/
def configureTypeScript (config : JVal) : Except Unit JVal :=
  let c1 := setF config "parser" (.str "@typescript-eslint/parser")
  match appendField c1 "plugins" [.str "@typescript-eslint"] with
  | .error e => .error e
  | .ok c2 =>
    match appendField c2 "extends" [.str "plugin:@typescript-eslint/recommended"] with
    | .error e => .error e
    | .ok c3 =>
      .ok (spreadField c3 "rules"
        [("@typescript-eslint/explicit-function-return-type", .str "off"),
         ("@typescript-eslint/explicit-module-boundary-types", .str "off"),
         ("@typescript-eslint/no-explicit-any", .str "warn")])

/-- `eslintConfigGenerator.configurePrettier(config)`. -/
def configurePrettier (config : JVal) : Except Unit JVal :=
  match appendField config "extends" [.str "plugin:prettier/recommended"] with
  | .error e => .error e
  | .ok c1 => .ok (spreadField c1 "rules" [("prettier/prettier", .str "error")])

/-! ## `eslintConfigGenerator.generateConfig` -/

/-- The base `rules` map literal of `generateConfig`. -/
def baseRules (useStrict : Bool) : List (String × JVal) :=
  [("no-console", .str (if useStrict then "error" else "warn")),
   ("no-debugger", .str "error"),
   ("no-unused-vars", .str "error")]

/-- The initial `eslintConfig` object literal of `generateConfig`. -/
def baseEslintConfig (projectType : String) (useStrict : Bool)
    (packageJson : JVal) : JVal :=
  .obj
    [("root", .bool true),
     ("env", .obj [("browser", .bool true), ("es2022", .bool true),
                   ("node", .bool true)]),
     ("parserOptions", .obj
       [("ecmaVersion", .str "latest"),
        ("sourceType", .str
          (if getF packageJson "type" = some (.str "module") then "module"
           else if projectType = "react" ∨ projectType = "nextjs" ∨
               projectType = "svelte" then "module"
           else "script"))]),
     ("rules", .obj (baseRules useStrict))]

/-- `eslintConfigGenerator.generateConfig(projectType, useTypeScript,
useStrict, usePrettier, packageJson, existingConfig)`.  Note that the
`svelte` case invokes `configureSvelte` with a single argument, so its
`useTypeScript` parameter is `undefined` (`none`). -/
def generateConfig (projectType : String)
    (useTypeScript useStrict usePrettier : Bool)
    (packageJson existingConfig : JVal) : Except Unit JVal :=
  match mergeConfigs (baseEslintConfig projectType useStrict packageJson)
      existingConfig with
  | .error e => .error e
  | .ok merged =>
    let step :=
      if projectType = "react" then configureReact merged useTypeScript
      else if projectType = "nextjs" then configureNextjs merged
      else if projectType = "nodejs" then configureNodejs merged
      else if projectType = "svelte" then .ok (configureSvelte merged none)
      else if projectType = "vue" then configureVue merged
      else if projectType = "angular" then configureAngular merged
      else .ok merged
    match step with
    | .error e => .error e
    | .ok configured =>
      let step2 :=
        if useTypeScript ∧ projectType ≠ "nextjs" then
          configureTypeScript configured
        else .ok configured
      match step2 with
      | .error e => .error e
      | .ok withTs =>
        if usePrettier then configurePrettier withTs else .ok withTs

/-! ## Dependency catalog (`dependencyManager`) -/

def PROJECT_TYPES : List String :=
  ["nextjs", "react", "nodejs", "angular", "vue", "svelte"]

def commonDependencies : List String :=
  ["eslint@^8.56.0", "prettier@^3.2.5", "eslint-config-prettier@^9.1.0",
   "eslint-plugin-prettier@^5.1.3"]

def typeSpecificDependencies : List (String × List String) :=
  [("nextjs", ["eslint-config-next@latest"]),
   ("react", ["eslint-plugin-react@^7.34.1", "eslint-plugin-react-hooks@^4.6.0",
              "eslint-plugin-jsx-a11y@^6.8.0", "eslint-config-react-app@^7.0.1",
              "eslint-plugin-import@^2.29.1"]),
   ("nodejs", ["eslint-plugin-node@^11.1.0"]),
   ("angular", ["@angular-eslint/eslint-plugin@^17.3.0",
                "@angular-eslint/eslint-plugin-template@^17.3.0"]),
   ("vue", ["eslint-plugin-vue@^9.23.0"]),
   ("svelte", ["eslint-plugin-svelte@latest", "svelte-eslint-parser@latest",
               "prettier-plugin-svelte@latest", "eslint-config-prettier@latest",
               "svelte-check@latest"])]

def typescriptDependencies : List String :=
  ["@typescript-eslint/parser@^7.1.0", "@typescript-eslint/eslint-plugin@^7.1.0"]

/-- `dep.includes('prettier')`: substring test on a dependency specifier. -/
def jsIncludes (s sub : String) : Bool :=
  decide (sub.data <:+: s.data)

/-- `dependencyManager.getProjectDependencies(projectType, useTypeScript,
usePrettier)`.  Looking up a project type outside the catalog yields
`undefined`, and spreading `undefined` raises a `TypeError`. -/
def getProjectDependencies (projectType : String)
    (useTypeScript usePrettier : Bool) : Except Unit (List String) :=
  match List.lookup projectType typeSpecificDependencies with
  | none => .error ()
  | some tds =>
    let deps := commonDependencies ++ tds
    let deps :=
      if useTypeScript ∧ projectType ≠ "nextjs" then
        deps ++ typescriptDependencies
      else deps
    let deps :=
      if usePrettier then deps
      else deps.filter (fun dep => !jsIncludes dep "prettier")
    .ok deps

/-! ## Ignore-list builder (`fileSystem.createEslintIgnore`) -/

def commonIgnores : List String :=
  ["node_modules", "dist", "build", "coverage", "*.min.js", "*.d.ts"]

def typeSpecificIgnores : List (String × List String) :=
  [("nextjs", ["next.config.js", ".next"]),
   ("react", ["react-app-env.d.ts"]),
   ("nodejs", []),
   ("svelte", ["rollup.config.js", "svelte.config.js", ".svelte-kit",
               "package", "build", ".env", ".env.*", "!.env.example",
               "vite.config.js"])]

/-- The pattern list written by `fileSystem.createEslintIgnore(projectType)`:
`[...commonIgnores, ...(typeSpecificIgnores[projectType] || [])]`. -/
def eslintIgnoreList (projectType : String) : List String :=
  commonIgnores ++ (List.lookup projectType typeSpecificIgnores).getD []

/-! ## Svelte TypeScript auto-detection and orchestration (`setupProject`) -/

/-- `isSvelteUsingTypeScript()` applied to the working directory's file
listing: `files.some(file => file === 'tsconfig.json' ||
file.endsWith('.ts') || file.endsWith('.svelte'))`. -/
def isSvelteUsingTypeScript (files : List String) : Bool :=
  files.any (fun file =>
    file = "tsconfig.json" || file.endsWith ".ts" || file.endsWith ".svelte")

/-- `setupProject`: after the prompts, `useTypeScript` is overwritten by
`isSvelteUsingTypeScript()` when the project type is `svelte`. -/
def effectiveUseTypeScript (projectType : String) (promptedTs : Bool)
    (files : List String) : Bool :=
  if projectType = "svelte" then isSvelteUsingTypeScript files else promptedTs

/-- `setupProject`: `createSvelteTsConfig()` (which writes `tsconfig.json`)
runs exactly when the project type is `svelte` and the effective
`useTypeScript` is true. -/
def writesSvelteTsConfig (projectType : String) (promptedTs : Bool)
    (files : List String) : Bool :=
  projectType = "svelte" && effectiveUseTypeScript projectType promptedTs files

/-! ## `package.json` update step (`setupProject` + `fileSystem.updatePackageJson`) -/

/-- `v || d`: JavaScript short-circuiting or with a default, where `v`
may be `undefined` (`none`). -/
def jsOr (v : Option JVal) (d : JVal) : JVal :=
  match v with
  | none => d
  | some x => if truthy x then x else d

/-- `packageJson.scripts?.[k]`: optional chaining through `scripts`. -/
def pkgScript (packageJson : JVal) (k : String) : Option JVal :=
  (getF packageJson "scripts").bind (fun s => getF s k)

/-- The final value of `packageJsonUpdates.scripts` built by
`setupProject`: the spread of the pre-existing scripts, the `lint` /
`lint:fix` entries (kept when already present and truthy), the Svelte
replacement block, and the optional `format` entry. -/
def scriptsUpdate (projectType : String) (usePrettier : Bool)
    (packageJson : JVal) : List (String × JVal) :=
  let base := setKeys (jsObjSpreadOpt (getF packageJson "scripts"))
      [("lint", jsOr (pkgScript packageJson "lint") (.str "eslint .")),
       ("lint:fix", jsOr (pkgScript packageJson "lint:fix") (.str "eslint . --fix"))]
  let base :=
    if projectType = "svelte" then
      setKeys base
        [("lint", .str "eslint --ignore-path .gitignore ."),
         ("lint:fix", .str "eslint --ignore-path .gitignore --fix ."),
         ("check", .str "svelte-check --tsconfig ./tsconfig.json"),
         ("format", .str "prettier --write --plugin prettier-plugin-svelte .")]
    else base
  if usePrettier then
    setKeys base
      [("format", jsOr (pkgScript packageJson "format") (.str "prettier --write ."))]
  else base

/-- The `lint-staged` map installed when the hook manager is enabled. -/
def lintStagedValue : JVal :=
  .obj [("*.\x7bjs,jsx,ts,tsx,svelte\x7d", .arr [.str "eslint --fix"]),
        ("*.\x7bjson,md,css,html,svelte\x7d", .arr [.str "prettier --write"])]

/-- The `packageJsonUpdates` object handed to
`fileSystem.updatePackageJson`. -/
def packageJsonUpdates (projectType : String) (usePrettier useHusky : Bool)
    (packageJson : JVal) : List (String × JVal) :=
  let upd := [("scripts", JVal.obj (scriptsUpdate projectType usePrettier packageJson))]
  if useHusky then setKeys upd [("lint-staged", lintStagedValue)] else upd

/-- `fileSystem.updatePackageJson(updates)`:
`{ ...packageJson, ...updates }`. -/
def updatedPackageJson (projectType : String) (usePrettier useHusky : Bool)
    (packageJson : JVal) : JVal :=
  .obj (setKeys (jsObjSpread packageJson)
    (packageJsonUpdates projectType usePrettier useHusky packageJson))

/-! ## Basic lemmas about the helpers -/

theorem lookup_cons_eq (a : String) (b : JVal) (es : List (String × JVal)) :
    List.lookup a ((a, b) :: es) = some b := by
  simp [List.lookup]

theorem lookup_cons_ne (k a : String) (b : JVal) (es : List (String × JVal))
    (h : k ≠ a) : List.lookup k ((a, b) :: es) = List.lookup k es := by
  have hb : (k == a) = false := beq_eq_false_iff_ne.mpr h
  simp [List.lookup, hb]

@[simp] theorem lookup_setKey (l : List (String × JVal)) (k k' : String)
    (v : JVal) :
    List.lookup k' (setKey l k v) = if k' = k then some v else List.lookup k' l := by
  induction l with
  | nil =>
    by_cases h : k' = k
    · subst h; simp [setKey, lookup_cons_eq]
    · simp [setKey, lookup_cons_ne _ _ _ _ h, h]
  | cons p rest ih =>
    obtain ⟨a, b⟩ := p
    by_cases hak : a = k
    · subst hak
      by_cases h : k' = a
      · subst h; simp [setKey, lookup_cons_eq]
      · simp [setKey, lookup_cons_ne _ _ _ _ h, h]
    · by_cases h : k' = a
      · subst h
        simp [setKey, hak, lookup_cons_eq, Ne.symm hak]
      · simp [setKey, hak, lookup_cons_ne _ _ _ _ h, ih]

@[simp] theorem mem_jsDedup (l : List JVal) (x : JVal) :
    x ∈ jsDedup l ↔ x ∈ l := by
  induction l using jsDedup.induct with
  | case1 => simp [jsDedup]
  | case2 y ys ih =>
    by_cases hxy : x = y
    · subst hxy; simp [jsDedup]
    · rw [jsDedup]
      simp only [List.mem_cons, hxy, false_or, ih, List.mem_filter,
        decide_eq_true_eq]
      constructor
      · exact fun h => h.1
      · exact fun h => ⟨h, hxy⟩

theorem lookup_mem {l : List (String × JVal)} {k : String} {v : JVal}
    (h : List.lookup k l = some v) : (k, v) ∈ l := by
  induction l with
  | nil => simp at h
  | cons p rest ih =>
    obtain ⟨a, b⟩ := p
    by_cases hak : k = a
    · subst hak
      rw [lookup_cons_eq] at h
      simp [← Option.some.injEq _ _ |>.mp h]
    · rw [lookup_cons_ne _ _ _ _ hak] at h
      exact List.mem_cons_of_mem _ (ih h)

/-- Keys untouched by `setKeys` keep their value. -/
theorem lookup_setKeys_notin (fs : List (String × JVal))
    (kvs : List (String × JVal)) (k : String)
    (h : ∀ p ∈ kvs, k ≠ p.1) :
    List.lookup k (setKeys fs kvs) = List.lookup k fs := by
  induction kvs generalizing fs with
  | nil => rfl
  | cons p rest ih =>
    have hne : k ≠ p.1 := h p (by simp)
    have := ih (setKey fs p.1 p.2) (fun q hq => h q (by simp [hq]))
    simpa [setKeys, lookup_setKey, hne] using this

/-- Field `k` of the configuration produced by a fallible step, `none` on
failure. -/
def okField (r : Except Unit JVal) (k : String) : Option JVal :=
  match r with
  | .ok c => getF c k
  | .error _ => none

/-- Nested field `k.k2` of the configuration produced by a fallible step. -/
def okField2 (r : Except Unit JVal) (k k2 : String) : Option JVal :=
  match r with
  | .ok c => (getF c k).bind (fun v => getF v k2)
  | .error _ => none

/-! ## Claim C1: merge dispatch -/

/-- C1 counterexample: `mergeConfigs` does NOT dispatch on both sides'
shapes.  At key `"a"` the base value is the scalar string `"xy"` and the
incoming value is the sequence `["z"]`, yet the result is not the incoming
value: the base string is spread into its characters and set-unioned,
giving `["x", "y", "z"]`. -/
theorem C1_counterexample :
    mergeConfigs (.obj [("a", .str "xy")]) (.obj [("a", .arr [.str "z"])]) =
      .ok (.obj [("a", .arr [.str "x", .str "y", .str "z"])]) ∧
    JVal.arr [.str "x", .str "y", .str "z"] ≠ JVal.arr [.str "z"] := by
  constructor
  · simp [mergeConfigs, mergeEntries, jsObjSpread, iterSpreadOrEmpty, truthy,
      iterSpread, strChars, jsDedup, setKey, List.lookup, Except.map]
  · simp

/-- C1 amended: `mergeConfigs` dispatches on the shape of the INCOMING
value only.  An incoming scalar (or null) overwrites; an incoming
sequence always takes the union branch, spreading the base value as an
iterable (a sequence base contributes its elements, a non-empty string
base its characters, and a non-zero number or nested-document base makes
the merge raise a TypeError); an incoming nested document always takes
the recursive branch, with `base[key] || {}` as the base. -/
theorem C1_amended (bs : List (String × JVal)) (k : String) :
    (∀ v : JVal, (∀ vs, v ≠ .arr vs) → (∀ gs, v ≠ .obj gs) →
      mergeConfigs (.obj bs) (.obj [(k, v)]) = .ok (.obj (setKey bs k v))) ∧
    (∀ vs as, List.lookup k bs = some (.arr as) →
      mergeConfigs (.obj bs) (.obj [(k, .arr vs)]) =
        .ok (.obj (setKey bs k (.arr (jsDedup (as ++ vs)))))) ∧
    (∀ vs s, List.lookup k bs = some (.str s) → s ≠ "" →
      mergeConfigs (.obj bs) (.obj [(k, .arr vs)]) =
        .ok (.obj (setKey bs k (.arr (jsDedup (strChars s ++ vs)))))) ∧
    (∀ vs n, List.lookup k bs = some (.num n) → n ≠ 0 →
      mergeConfigs (.obj bs) (.obj [(k, .arr vs)]) = .error ()) ∧
    (∀ vs gs, List.lookup k bs = some (.obj gs) →
      mergeConfigs (.obj bs) (.obj [(k, .arr vs)]) = .error ()) ∧
    (∀ gs, mergeConfigs (.obj bs) (.obj [(k, .obj gs)]) =
      (mergeConfigs (objBase (List.lookup k bs)) (.obj gs)).map
        (fun m => .obj (setKey bs k m))) := by
  refine ⟨?_, ?_, ?_, ?_, ?_, ?_⟩
  · intro v hva hvo
    cases v with
    | arr vs => exact absurd rfl (hva vs)
    | obj gs => exact absurd rfl (hvo gs)
    | null => simp [mergeConfigs, mergeEntries, jsObjSpread, Except.map]
    | bool b => simp [mergeConfigs, mergeEntries, jsObjSpread, Except.map]
    | num n => simp [mergeConfigs, mergeEntries, jsObjSpread, Except.map]
    | str s => simp [mergeConfigs, mergeEntries, jsObjSpread, Except.map]
  · intro vs as h
    simp [mergeConfigs, mergeEntries, jsObjSpread, h, iterSpreadOrEmpty, truthy,
      iterSpread, Except.map]
  · intro vs s h hs
    simp [mergeConfigs, mergeEntries, jsObjSpread, h, iterSpreadOrEmpty, truthy,
      iterSpread, hs, Except.map]
  · intro vs n h hn
    simp [mergeConfigs, mergeEntries, jsObjSpread, h, iterSpreadOrEmpty, truthy,
      iterSpread, hn, Except.map]
  · intro vs gs h
    simp [mergeConfigs, mergeEntries, jsObjSpread, h, iterSpreadOrEmpty, truthy,
      iterSpread, Except.map]
  · intro gs
    rw [mergeConfigs]
    cases h : mergeConfigs (objBase (List.lookup k bs)) (.obj gs) with
    | error e => simp [mergeEntries, jsObjSpread, h, Except.map]
    | ok m => simp [mergeEntries, jsObjSpread, h, Except.map]

/-- C1 amended witness: concrete instances of the overwrite branch, the
both-sequence union branch, and the sequence-over-number TypeError
branch. -/
theorem C1_amended_witness :
    mergeConfigs (.obj [("b", .num 1)]) (.obj [("b", .str "w")]) =
      .ok (.obj [("b", .str "w")]) ∧
    mergeConfigs (.obj [("b", .arr [.str "p"])]) (.obj [("b", .arr [.str "q"])]) =
      .ok (.obj [("b", .arr [.str "p", .str "q"])]) ∧
    mergeConfigs (.obj [("b", .num 2)]) (.obj [("b", .arr [.str "q"])]) =
      .error () := by
  refine ⟨?_, ?_, ?_⟩
  · have h := (C1_amended [("b", .num 1)] "b").1 (.str "w")
      (fun vs => by simp) (fun gs => by simp)
    simpa [setKey] using h
  · have h := (C1_amended [("b", .arr [.str "p"])] "b").2.1 [.str "q"]
      [.str "p"] rfl
    simpa [setKey, jsDedup] using h
  · exact (C1_amended [("b", .num 2)] "b").2.2.2.1 [.str "q"] 2 rfl (by decide)

/-! ## Claim C3: strictness flag -/

/-- C3 counterexample: with `useStrict = false` the base rules map still
pins `no-debugger` and `no-unused-vars` to the blocking severity
`'error'` (they are not left to type-specific defaults), and for a
project type whose rule function does not touch them (react) they remain
`'error'` in the final document. -/
theorem C3_counterexample :
    List.lookup "no-debugger" (baseRules false) = some (.str "error") ∧
    List.lookup "no-unused-vars" (baseRules false) = some (.str "error") ∧
    okField2 (generateConfig "react" false false false (.obj []) (.obj []))
      "rules" "no-debugger" = some (.str "error") := by
  refine ⟨rfl, rfl, ?_⟩
  simp [generateConfig, mergeConfigs, mergeEntries, baseEslintConfig, baseRules,
    jsObjSpread, configureReact, appendField, getF, iterSpreadOrEmpty, iterSpread,
    truthy, spreadField, setKeys, setKey, jsObjSpreadOpt, Except.map, okField2,
    List.lookup, setF]

/-- C3 amended: in the base rules map, `no-console` is `'error'` when
`useStrict` is true and `'warn'` otherwise, while `no-debugger` and
`no-unused-vars` are unconditionally set to `'error'` regardless of the
strictness flag (the flag only toggles `no-console`). -/
theorem C3_amended (useStrict : Bool) :
    List.lookup "no-console" (baseRules useStrict) =
      some (.str (if useStrict then "error" else "warn")) ∧
    List.lookup "no-debugger" (baseRules useStrict) = some (.str "error") ∧
    List.lookup "no-unused-vars" (baseRules useStrict) = some (.str "error") := by
  cases useStrict <;> exact ⟨rfl, rfl, rfl⟩

/-! ## Claim C4: formatter packages in the dependency list -/

/-- C4: for every supported project type and either TypeScript choice,
`getProjectDependencies(type, useTypeScript, false)` contains no
specifier whose name contains the substring `prettier`, and
`getProjectDependencies(type, useTypeScript, true)` contains the
formatter core package `prettier@^3.2.5`. -/
theorem C4_formatter_filter (t : String) (ht : t ∈ PROJECT_TYPES) (ts : Bool) :
    (∃ l, getProjectDependencies t ts false = .ok l ∧
      ∀ d ∈ l, jsIncludes d "prettier" = false) ∧
    (∃ l, getProjectDependencies t ts true = .ok l ∧ "prettier@^3.2.5" ∈ l) := by
  fin_cases ht <;> cases ts <;>
    exact ⟨⟨_, rfl, by decide⟩, ⟨_, rfl, by decide⟩⟩

/-- C4 witness at `react`. -/
theorem C4_witness :
    "react" ∈ PROJECT_TYPES ∧
    ((∃ l, getProjectDependencies "react" true false = .ok l ∧
      ∀ d ∈ l, jsIncludes d "prettier" = false) ∧
    (∃ l, getProjectDependencies "react" true true = .ok l ∧
      "prettier@^3.2.5" ∈ l)) :=
  ⟨by decide, C4_formatter_filter "react" (by decide) true⟩

/-! ## Claim C7: the nodejs scenario -/

/-- C7: for `type = nodejs`, `useTypeScript = false`, `useStrict = true`,
`usePrettier = true`, no existing configuration: the dependency list is
exactly the four common packages plus the Node lint plugin; the generated
rules map has `no-console`, `no-debugger`, `no-unused-vars` at `'error'`;
and the lint ignore list is exactly the common list. -/
theorem C7_nodejs_scenario (pkg : JVal) :
    getProjectDependencies "nodejs" false true =
      .ok ["eslint@^8.56.0", "prettier@^3.2.5", "eslint-config-prettier@^9.1.0",
           "eslint-plugin-prettier@^5.1.3", "eslint-plugin-node@^11.1.0"] ∧
    okField2 (generateConfig "nodejs" false true true pkg (.obj []))
      "rules" "no-console" = some (.str "error") ∧
    okField2 (generateConfig "nodejs" false true true pkg (.obj []))
      "rules" "no-debugger" = some (.str "error") ∧
    okField2 (generateConfig "nodejs" false true true pkg (.obj []))
      "rules" "no-unused-vars" = some (.str "error") ∧
    eslintIgnoreList "nodejs" = commonIgnores := by
  refine ⟨rfl, ?_, ?_, ?_, rfl⟩ <;>
    simp [generateConfig, mergeConfigs, mergeEntries, baseEslintConfig, baseRules,
      jsObjSpread, configureNodejs, appendField, getF, iterSpreadOrEmpty,
      iterSpread, truthy, spreadField, setKeys, setKey, jsObjSpreadOpt,
      configurePrettier, Except.map, okField2, List.lookup, setF]

/-! ## Claim C8: Svelte TypeScript auto-detection -/

/-- C8: for the svelte project type, when the directory listing contains
a `.svelte` file, a `tsconfig.json`, or a `.ts` file, the effective
`useTypeScript` is true regardless of the prompted answer, and
`tsconfig.json` is additionally generated. -/
theorem C8_svelte_autodetect (files : List String) (promptedTs : Bool)
    (h : ∃ f ∈ files, f.endsWith ".svelte" = true ∨ f = "tsconfig.json" ∨
      f.endsWith ".ts" = true) :
    effectiveUseTypeScript "svelte" promptedTs files = true ∧
    writesSvelteTsConfig "svelte" promptedTs files = true := by
  obtain ⟨f, hf, hc⟩ := h
  have hdet : isSvelteUsingTypeScript files = true := by
    simp only [isSvelteUsingTypeScript, List.any_eq_true]
    exact ⟨f, hf, by rcases hc with h | h | h <;> simp [h]⟩
  simp [effectiveUseTypeScript, writesSvelteTsConfig, hdet]

/-- C8 witness: a directory containing exactly `tsconfig.json`, with the
prompt answered "no". -/
theorem C8_witness :
    (∃ f ∈ (["tsconfig.json"] : List String), f.endsWith ".svelte" = true ∨
      f = "tsconfig.json" ∨ f.endsWith ".ts" = true) ∧
    (effectiveUseTypeScript "svelte" false ["tsconfig.json"] = true ∧
     writesSvelteTsConfig "svelte" false ["tsconfig.json"] = true) :=
  ⟨⟨"tsconfig.json", by simp, Or.inr (Or.inl rfl)⟩,
   C8_svelte_autodetect ["tsconfig.json"] false
     ⟨"tsconfig.json", by simp, Or.inr (Or.inl rfl)⟩⟩

/-! ## General lemmas about the merge loop -/

theorem lookup_none_iff (l : List (String × JVal)) (k : String) :
    List.lookup k l = none ↔ ∀ p ∈ l, k ≠ p.1 := by
  induction l with
  | nil => simp
  | cons p rest ih =>
    obtain ⟨a, b⟩ := p
    by_cases hak : k = a
    · subst hak
      simp [lookup_cons_eq]
    · simp [lookup_cons_ne _ _ _ _ hak, ih, hak]

theorem mergeEntries_nil (merged : List (String × JVal)) :
    mergeEntries merged [] = .ok merged := by
  rw [mergeEntries]

theorem mergeEntries_cons_arr (merged : List (String × JVal)) (k' : String)
    (vs : List JVal) (rest : List (String × JVal)) :
    mergeEntries merged ((k', .arr vs) :: rest) =
      match iterSpreadOrEmpty (List.lookup k' merged) with
      | .error e => .error e
      | .ok bs => mergeEntries (setKey merged k' (.arr (jsDedup (bs ++ vs)))) rest := by
  rw [mergeEntries]

theorem mergeEntries_cons_obj (merged : List (String × JVal)) (k' : String)
    (gs rest : List (String × JVal)) :
    mergeEntries merged ((k', .obj gs) :: rest) =
      match mergeConfigs (objBase (List.lookup k' merged)) (.obj gs) with
      | .error e => .error e
      | .ok m => mergeEntries (setKey merged k' m) rest := by
  rw [mergeEntries]

theorem mergeEntries_cons_null (merged : List (String × JVal)) (k' : String)
    (rest : List (String × JVal)) :
    mergeEntries merged ((k', .null) :: rest) =
      mergeEntries (setKey merged k' .null) rest := by
  rw [mergeEntries] <;> simp

theorem mergeEntries_cons_bool (merged : List (String × JVal)) (k' : String)
    (b : Bool) (rest : List (String × JVal)) :
    mergeEntries merged ((k', .bool b) :: rest) =
      mergeEntries (setKey merged k' (.bool b)) rest := by
  rw [mergeEntries] <;> simp

theorem mergeEntries_cons_num (merged : List (String × JVal)) (k' : String)
    (n : Int) (rest : List (String × JVal)) :
    mergeEntries merged ((k', .num n) :: rest) =
      mergeEntries (setKey merged k' (.num n)) rest := by
  rw [mergeEntries] <;> simp

theorem mergeEntries_cons_str (merged : List (String × JVal)) (k' : String)
    (s : String) (rest : List (String × JVal)) :
    mergeEntries merged ((k', .str s) :: rest) =
      mergeEntries (setKey merged k' (.str s)) rest := by
  rw [mergeEntries] <;> simp

/-- Keys not named by any incoming entry keep their merged value. -/
theorem mergeEntries_lookup_untouched :
    ∀ (fs merged out : List (String × JVal)),
    mergeEntries merged fs = .ok out →
    ∀ k, (∀ p ∈ fs, k ≠ p.1) → List.lookup k out = List.lookup k merged := by
  intro fs
  induction fs with
  | nil =>
    intro merged out h k _
    rw [mergeEntries_nil] at h
    cases h
    rfl
  | cons p rest ih =>
    intro merged out h k hk
    obtain ⟨k', v⟩ := p
    have hkne : k ≠ k' := hk (k', v) (by simp)
    have hrest : ∀ q ∈ rest, k ≠ q.1 := fun q hq => hk q (by simp [hq])
    cases v with
    | arr vs =>
      rw [mergeEntries_cons_arr] at h
      cases hsp : iterSpreadOrEmpty (List.lookup k' merged) with
      | error e => rw [hsp] at h; cases h
      | ok bs =>
        rw [hsp] at h
        have := ih _ _ h k hrest
        rwa [lookup_setKey, if_neg hkne] at this
    | obj gs =>
      rw [mergeEntries_cons_obj] at h
      cases hmc : mergeConfigs (objBase (List.lookup k' merged)) (.obj gs) with
      | error e => rw [hmc] at h; cases h
      | ok m =>
        rw [hmc] at h
        have := ih _ _ h k hrest
        rwa [lookup_setKey, if_neg hkne] at this
    | null =>
      rw [mergeEntries_cons_null] at h
      have := ih _ _ h k hrest
      rwa [lookup_setKey, if_neg hkne] at this
    | bool b =>
      rw [mergeEntries_cons_bool] at h
      have := ih _ _ h k hrest
      rwa [lookup_setKey, if_neg hkne] at this
    | num n =>
      rw [mergeEntries_cons_num] at h
      have := ih _ _ h k hrest
      rwa [lookup_setKey, if_neg hkne] at this
    | str s =>
      rw [mergeEntries_cons_str] at h
      have := ih _ _ h k hrest
      rwa [lookup_setKey, if_neg hkne] at this

/-- A key holding a sequence in the incoming document ends up holding the
deduplicated union of the spread base value and the incoming elements. -/
theorem mergeEntries_lookup_arr :
    ∀ (fs merged out : List (String × JVal)),
    mergeEntries merged fs = .ok out →
    (fs.map Prod.fst).Nodup →
    ∀ k vs, List.lookup k fs = some (.arr vs) →
    ∃ cur, iterSpreadOrEmpty (List.lookup k merged) = .ok cur ∧
      List.lookup k out = some (.arr (jsDedup (cur ++ vs))) := by
  intro fs
  induction fs with
  | nil =>
    intro merged out _ _ k vs hl
    simp at hl
  | cons p rest ih =>
    intro merged out h hnd k vs hl
    obtain ⟨k', v⟩ := p
    have hnd' : (k' :: rest.map Prod.fst).Nodup := by simpa using hnd
    have hnd1 : k' ∉ rest.map Prod.fst := (List.nodup_cons.mp hnd').1
    have hnd2 : (rest.map Prod.fst).Nodup := (List.nodup_cons.mp hnd').2
    by_cases hkk : k = k'
    · subst hkk
      rw [lookup_cons_eq] at hl
      cases hl
      rw [mergeEntries_cons_arr] at h
      cases hsp : iterSpreadOrEmpty (List.lookup k merged) with
      | error e => rw [hsp] at h; cases h
      | ok cur =>
        rw [hsp] at h
        refine ⟨cur, rfl, ?_⟩
        have hrest : ∀ q ∈ rest, k ≠ q.1 := by
          intro q hq hqe
          exact hnd1 (by simpa [← hqe] using List.mem_map_of_mem Prod.fst hq)
        have := mergeEntries_lookup_untouched _ _ _ h k hrest
        rwa [lookup_setKey, if_pos rfl] at this
    · rw [lookup_cons_ne _ _ _ _ hkk] at hl
      cases v with
      | arr ws =>
        rw [mergeEntries_cons_arr] at h
        cases hsp : iterSpreadOrEmpty (List.lookup k' merged) with
        | error e => rw [hsp] at h; cases h
        | ok bs =>
          rw [hsp] at h
          obtain ⟨cur, hcur, hout⟩ := ih _ _ h hnd2 k vs hl
          rw [lookup_setKey, if_neg hkk] at hcur
          exact ⟨cur, hcur, hout⟩
      | obj gs =>
        rw [mergeEntries_cons_obj] at h
        cases hmc : mergeConfigs (objBase (List.lookup k' merged)) (.obj gs) with
        | error e => rw [hmc] at h; cases h
        | ok m =>
          rw [hmc] at h
          obtain ⟨cur, hcur, hout⟩ := ih _ _ h hnd2 k vs hl
          rw [lookup_setKey, if_neg hkk] at hcur
          exact ⟨cur, hcur, hout⟩
      | null =>
        rw [mergeEntries_cons_null] at h
        obtain ⟨cur, hcur, hout⟩ := ih _ _ h hnd2 k vs hl
        rw [lookup_setKey, if_neg hkk] at hcur
        exact ⟨cur, hcur, hout⟩
      | bool b =>
        rw [mergeEntries_cons_bool] at h
        obtain ⟨cur, hcur, hout⟩ := ih _ _ h hnd2 k vs hl
        rw [lookup_setKey, if_neg hkk] at hcur
        exact ⟨cur, hcur, hout⟩
      | num n =>
        rw [mergeEntries_cons_num] at h
        obtain ⟨cur, hcur, hout⟩ := ih _ _ h hnd2 k vs hl
        rw [lookup_setKey, if_neg hkk] at hcur
        exact ⟨cur, hcur, hout⟩
      | str s =>
        rw [mergeEntries_cons_str] at h
        obtain ⟨cur, hcur, hout⟩ := ih _ _ h hnd2 k vs hl
        rw [lookup_setKey, if_neg hkk] at hcur
        exact ⟨cur, hcur, hout⟩

/-! ## Claim C5: merge of documents with disjoint sequences -/

/-- C5: for documents `A`, `B` whose common sequence-valued keys hold
disjoint sequences, every key at which both hold sequences ends up in
`merge(A, B)` holding exactly the set union of the two (no element lost),
and keys present only in `A` keep their value unchanged. -/
theorem C5_merge_disjoint_union (as bs out : List (String × JVal))
    (hnd : (bs.map Prod.fst).Nodup)
    (hdisj : ∀ k xa xb, List.lookup k as = some (.arr xa) →
      List.lookup k bs = some (.arr xb) → ∀ x ∈ xa, x ∉ xb)
    (hm : mergeConfigs (.obj as) (.obj bs) = .ok (.obj out)) :
    (∀ k xa xb, List.lookup k as = some (.arr xa) →
      List.lookup k bs = some (.arr xb) →
      ∃ xs, List.lookup k out = some (.arr xs) ∧
        ∀ x, x ∈ xs ↔ (x ∈ xa ∨ x ∈ xb)) ∧
    (∀ k, List.lookup k bs = none → List.lookup k out = List.lookup k as) := by
  clear hdisj
  rw [mergeConfigs] at hm
  cases he : mergeEntries (jsObjSpread (.obj as)) bs with
  | error e => rw [he] at hm; cases hm
  | ok o =>
    rw [he] at hm
    simp only [Except.map, Except.ok.injEq, JVal.obj.injEq] at hm
    subst hm
    simp only [jsObjSpread] at he
    constructor
    · intro k xa xb ha hb
      obtain ⟨cur, hcur, hout⟩ := mergeEntries_lookup_arr _ _ _ he hnd k xb hb
      rw [ha] at hcur
      simp [iterSpreadOrEmpty, truthy, iterSpread] at hcur
      subst hcur
      exact ⟨_, hout, fun x => by simp [mem_jsDedup]⟩
    · intro k hnone
      exact mergeEntries_lookup_untouched _ _ _ he k ((lookup_none_iff _ _).mp hnone)

/-- C5 witness: `A = {x: ["a"], only: "base"}`, `B = {x: ["b"]}`. -/
theorem C5_witness :
    (∃ xs, List.lookup "x"
        [("x", JVal.arr [.str "a", .str "b"]), ("only", JVal.str "base")] =
        some (.arr xs) ∧
      ∀ x, x ∈ xs ↔ (x ∈ [JVal.str "a"] ∨ x ∈ [JVal.str "b"])) ∧
    List.lookup "only"
        [("x", JVal.arr [.str "a", .str "b"]), ("only", JVal.str "base")] =
      List.lookup "only" [("x", JVal.arr [.str "a"]), ("only", JVal.str "base")] := by
  have hm : mergeConfigs (.obj [("x", .arr [.str "a"]), ("only", .str "base")])
      (.obj [("x", .arr [.str "b"])]) =
      .ok (.obj [("x", .arr [.str "a", .str "b"]), ("only", .str "base")]) := by
    simp [mergeConfigs, mergeEntries, jsObjSpread, iterSpreadOrEmpty, truthy,
      iterSpread, jsDedup, setKey, List.lookup, Except.map]
  have hdisj : ∀ k xa xb,
      List.lookup k [("x", JVal.arr [.str "a"]), ("only", JVal.str "base")] =
        some (.arr xa) →
      List.lookup k [("x", JVal.arr [.str "b"])] = some (.arr xb) →
      ∀ x ∈ xa, x ∉ xb := by
    intro k xa xb ha hb
    by_cases hk : k = "x"
    · subst hk
      rw [lookup_cons_eq] at ha hb
      simp only [Option.some.injEq, JVal.arr.injEq] at ha hb
      subst ha
      subst hb
      intro x hx
      simp only [List.mem_singleton] at hx
      subst hx
      simp
    · rw [lookup_cons_ne _ _ _ _ hk] at hb
      simp at hb
  have h := C5_merge_disjoint_union _ _ _ (by simp) hdisj hm
  exact ⟨h.1 "x" [.str "a"] [.str "b"] rfl rfl, h.2 "only" rfl⟩

/-! ## Claim C6: idempotence of the merge

A JavaScript object cannot have duplicate keys, so documents are
modelled with recursively duplicate-free key lists (`wfDoc`).
"Equality up to sequence-order normalization" is `seqEquivB`: structural
equality except that sequences are compared as sets (the spec's data
model reads sequences as "deduplicated as a set when merged").
`selfNorm X` is the value `merge(X, X)` computes: each sequence becomes
the first-occurrence deduplication of its self-concatenation. -/

mutual

/-- Well-formed document: every object level has duplicate-free keys. -/
def wfDoc : JVal → Bool
  | .obj fs => decide ((fs.map Prod.fst).Nodup) && wfFields fs
  | .arr _ => true
  | .null => true
  | .bool _ => true
  | .num _ => true
  | .str _ => true

/-- Well-formedness of the values of an entry list. -/
def wfFields : List (String × JVal) → Bool
  | [] => true
  | (_, v) :: fs => wfDoc v && wfFields fs

end

mutual

/-- The result of merging a value with itself. -/
def selfNorm : JVal → JVal
  | .arr vs => .arr (jsDedup (vs ++ vs))
  | .obj fs => .obj (selfNormFields fs)
  | .null => .null
  | .bool b => .bool b
  | .num n => .num n
  | .str s => .str s

/-- `selfNorm` applied to each value of an entry list. -/
def selfNormFields : List (String × JVal) → List (String × JVal)
  | [] => []
  | (k, v) :: fs => (k, selfNorm v) :: selfNormFields fs

end

/-- Boolean subset test between element lists. -/
def jsubsetB (a b : List JVal) : Bool :=
  a.all (fun x => decide (x ∈ b))

mutual

/-- Equality up to sequence-order normalization: sequences are compared
as sets of elements, documents pointwise, scalars exactly. -/
def seqEquivB : JVal → JVal → Bool
  | .arr a, .arr b => jsubsetB a b && jsubsetB b a
  | .obj fs, .obj gs => seqEquivFields fs gs
  | .null, .null => true
  | .bool a, .bool b => a == b
  | .num a, .num b => a == b
  | .str a, .str b => a == b
  | _, _ => false

/-- Pointwise `seqEquivB` on entry lists. -/
def seqEquivFields : List (String × JVal) → List (String × JVal) → Bool
  | [], [] => true
  | (k, v) :: fs, (l, w) :: gs =>
      decide (k = l) && seqEquivB v w && seqEquivFields fs gs
  | _, _ => false

end

theorem selfNormFields_keys (l : List (String × JVal)) :
    (selfNormFields l).map Prod.fst = l.map Prod.fst := by
  induction l with
  | nil => rfl
  | cons p rest ih =>
    obtain ⟨k, v⟩ := p
    simp [selfNormFields, ih]

theorem selfNormFields_append (a b : List (String × JVal)) :
    selfNormFields (a ++ b) = selfNormFields a ++ selfNormFields b := by
  induction a with
  | nil => rfl
  | cons p rest ih =>
    obtain ⟨k, v⟩ := p
    simp [selfNormFields, ih]

theorem lookup_append_notin (A l : List (String × JVal)) (k : String)
    (h : k ∉ A.map Prod.fst) :
    List.lookup k (A ++ l) = List.lookup k l := by
  induction A with
  | nil => rfl
  | cons p rest ih =>
    obtain ⟨a, b⟩ := p
    have hka : k ≠ a := by
      intro hk
      exact h (by simp [hk])
    rw [List.cons_append, lookup_cons_ne _ _ _ _ hka]
    exact ih (fun hm => h (by simp [hm]))

theorem setKey_append_notin (A l : List (String × JVal)) (k : String) (v : JVal)
    (h : k ∉ A.map Prod.fst) :
    setKey (A ++ l) k v = A ++ setKey l k v := by
  induction A with
  | nil => rfl
  | cons p rest ih =>
    obtain ⟨a, b⟩ := p
    have hka : a ≠ k := by
      intro hk
      exact h (by simp [hk])
    rw [List.cons_append, setKey, if_neg hka, ih (fun hm => h (by simp [hm])),
      List.cons_append]

theorem setKey_cons_self (l : List (String × JVal)) (k : String) (v w : JVal) :
    setKey ((k, v) :: l) k w = (k, w) :: l := by
  simp [setKey]

theorem mergeEntries_cons_arr_ok {merged : List (String × JVal)} {k' : String}
    {bs : List JVal} (vs : List JVal) (rest : List (String × JVal))
    (hsp : iterSpreadOrEmpty (List.lookup k' merged) = .ok bs) :
    mergeEntries merged ((k', .arr vs) :: rest) =
      mergeEntries (setKey merged k' (.arr (jsDedup (bs ++ vs)))) rest := by
  rw [mergeEntries_cons_arr, hsp]

theorem mergeEntries_cons_obj_ok {merged : List (String × JVal)} {k' : String}
    {m : JVal} (gs rest : List (String × JVal))
    (hmc : mergeConfigs (objBase (List.lookup k' merged)) (.obj gs) = .ok m) :
    mergeEntries merged ((k', .obj gs) :: rest) =
      mergeEntries (setKey merged k' m) rest := by
  rw [mergeEntries_cons_obj, hmc]

mutual

theorem mergeEntriesSelf : ∀ (fs pre : List (String × JVal)),
    wfFields fs = true → ((pre ++ fs).map Prod.fst).Nodup →
    mergeEntries (selfNormFields pre ++ fs) fs =
      .ok (selfNormFields pre ++ selfNormFields fs)
  | [], pre => by
    intro _ _
    rw [mergeEntries_nil]
    simp [selfNormFields]
  | (k, v) :: rest, pre => by
    intro hwf hnd
    have hv : wfDoc v = true := by
      have h := hwf
      rw [wfFields] at h
      exact (Bool.and_eq_true_iff.mp h).1
    have hrest : wfFields rest = true := by
      have h := hwf
      rw [wfFields] at h
      exact (Bool.and_eq_true_iff.mp h).2
    have hnd0 : (pre.map Prod.fst ++ k :: rest.map Prod.fst).Nodup := by
      simpa using hnd
    have hkpre : k ∉ pre.map Prod.fst := by
      intro hm
      exact ((List.nodup_append.mp hnd0).2.2 hm) (by simp)
    have hkA : k ∉ (selfNormFields pre).map Prod.fst := by
      rwa [selfNormFields_keys]
    have hnd' : (((pre ++ [(k, v)]) ++ rest).map Prod.fst).Nodup := by
      simpa [List.append_assoc] using hnd
    have hlk : List.lookup k (selfNormFields pre ++ (k, v) :: rest) = some v := by
      rw [lookup_append_notin _ _ _ hkA, lookup_cons_eq]
    have hstep : ∀ w : JVal,
        setKey (selfNormFields pre ++ (k, v) :: rest) k w =
          selfNormFields pre ++ (k, w) :: rest := by
      intro w
      rw [setKey_append_notin _ _ _ _ hkA, setKey_cons_self]
    have hIH := mergeEntriesSelf rest (pre ++ [(k, v)]) hrest hnd'
    rw [selfNormFields_append] at hIH
    simp only [selfNormFields, List.append_assoc, List.singleton_append,
      List.nil_append] at hIH
    cases v with
    | arr vs =>
      have hsp : iterSpreadOrEmpty
          (List.lookup k (selfNormFields pre ++ (k, JVal.arr vs) :: rest)) =
          .ok vs := by
        rw [hlk]
        simp [iterSpreadOrEmpty, truthy, iterSpread]
      rw [mergeEntries_cons_arr_ok vs rest hsp, hstep]
      simpa [selfNormFields, selfNorm] using hIH
    | obj gs =>
      have hmc : mergeConfigs
          (objBase (List.lookup k (selfNormFields pre ++ (k, JVal.obj gs) :: rest)))
          (.obj gs) = .ok (selfNorm (JVal.obj gs)) := by
        rw [hlk]
        have hob : objBase (some (JVal.obj gs)) = .obj gs := by
          simp [objBase, truthy]
        rw [hob]
        exact mergeConfigsSelf (JVal.obj gs) gs rfl hv
      rw [mergeEntries_cons_obj_ok gs rest hmc, hstep]
      simpa [selfNormFields, selfNorm] using hIH
    | null =>
      rw [mergeEntries_cons_null, hstep]
      simpa [selfNormFields, selfNorm] using hIH
    | bool b =>
      rw [mergeEntries_cons_bool, hstep]
      simpa [selfNormFields, selfNorm] using hIH
    | num n =>
      rw [mergeEntries_cons_num, hstep]
      simpa [selfNormFields, selfNorm] using hIH
    | str s =>
      rw [mergeEntries_cons_str, hstep]
      simpa [selfNormFields, selfNorm] using hIH
termination_by fs pre => sizeOf fs

theorem mergeConfigsSelf : ∀ (g : JVal) (gs : List (String × JVal)),
    g = .obj gs → wfDoc g = true → mergeConfigs g g = .ok (selfNorm g)
  | _, gs, rfl => by
    intro hwf
    rw [wfDoc] at hwf
    obtain ⟨hnd, hfs⟩ := Bool.and_eq_true_iff.mp hwf
    rw [mergeConfigs]
    have h := mergeEntriesSelf gs [] hfs (by simpa using of_decide_eq_true hnd)
    simp only [selfNormFields, List.nil_append] at h
    simp only [jsObjSpread, h, Except.map, selfNorm]
termination_by g gs _ => sizeOf g

end

mutual

theorem selfNormEquiv : ∀ v : JVal, seqEquivB v (selfNorm v) = true
  | .null => by rw [selfNorm, seqEquivB]
  | .bool b => by rw [selfNorm, seqEquivB]; simp
  | .num n => by rw [selfNorm, seqEquivB]; simp
  | .str s => by rw [selfNorm, seqEquivB]; simp
  | .arr vs => by
    rw [selfNorm, seqEquivB]
    simp [jsubsetB, List.all_eq_true, mem_jsDedup]
  | .obj fs => by
    rw [selfNorm, seqEquivB]
    exact selfNormEquivFields fs
termination_by v => sizeOf v

theorem selfNormEquivFields :
    ∀ fs : List (String × JVal), seqEquivFields fs (selfNormFields fs) = true
  | [] => by rw [selfNormFields, seqEquivFields]
  | (k, v) :: fs => by
    rw [selfNormFields, seqEquivFields]
    simp [selfNormEquiv v, selfNormEquivFields fs]
termination_by fs => sizeOf fs

end

/-- C6: merging a well-formed document with itself succeeds and returns
the document unchanged up to sequence-order normalization (sequences
compared as sets). -/
theorem C6_merge_idempotent (fs : List (String × JVal))
    (h : wfDoc (.obj fs) = true) :
    ∃ out, mergeConfigs (.obj fs) (.obj fs) = .ok out ∧
      seqEquivB (.obj fs) out = true :=
  ⟨selfNorm (.obj fs), mergeConfigsSelf (.obj fs) fs rfl h,
   selfNormEquiv (.obj fs)⟩

/-- C6 witness: a document with a duplicate element in a sequence and a
nested document. -/
theorem C6_witness :
    wfDoc (.obj [("extends", JVal.arr [.str "a", .str "a"]),
                 ("env", JVal.obj [("node", .bool true)])]) = true ∧
    ∃ out, mergeConfigs
        (.obj [("extends", JVal.arr [.str "a", .str "a"]),
               ("env", JVal.obj [("node", .bool true)])])
        (.obj [("extends", JVal.arr [.str "a", .str "a"]),
               ("env", JVal.obj [("node", .bool true)])]) = .ok out ∧
      seqEquivB (.obj [("extends", JVal.arr [.str "a", .str "a"]),
                       ("env", JVal.obj [("node", .bool true)])]) out = true := by
  have hwf : wfDoc (.obj [("extends", JVal.arr [.str "a", .str "a"]),
      ("env", JVal.obj [("node", .bool true)])]) = true := by
    simp [wfDoc, wfFields]
  exact ⟨hwf, C6_merge_idempotent _ hwf⟩

/-! ## Claim C2 counterexample -/

/-- C2 counterexample: for the svelte project type the rule function
REPLACES `extends` instead of appending, so the element
`my-shared-config` contributed by the existing configuration (merge
declined-overwrite path) is absent from the final document's `extends`. -/
theorem C2_counterexample :
    okField (generateConfig "svelte" false false false (.obj [])
        (.obj [("extends", .arr [.str "my-shared-config"])])) "extends" =
      some (.arr [.str "eslint:recommended", .str "plugin:svelte/recommended"]) ∧
    JVal.str "my-shared-config" ∉
      [JVal.str "eslint:recommended", JVal.str "plugin:svelte/recommended"] := by
  constructor
  · simp [generateConfig, mergeConfigs, mergeEntries, baseEslintConfig, baseRules,
      jsObjSpread, configureSvelte, appendField, getF, iterSpreadOrEmpty,
      iterSpread, truthy, spreadField, setKeys, setKey, jsObjSpreadOpt, jsDedup,
      Except.map, okField, List.lookup, setF]
  · simp

/-! ## Claim C9: svelte parser handling -/

theorem mergeConfigs_bool (b : JVal) (x : Bool) :
    mergeConfigs b (.bool x) = .ok (.obj (jsObjSpread b)) := by
  rw [mergeConfigs] <;> simp

theorem mergeConfigs_num (b : JVal) (n : Int) :
    mergeConfigs b (.num n) = .ok (.obj (jsObjSpread b)) := by
  rw [mergeConfigs] <;> simp

/-- A successful merge always yields an object. -/
theorem mergeConfigs_ok_obj {b i m : JVal} (h : mergeConfigs b i = .ok m) :
    ∃ ms, m = .obj ms := by
  cases i with
  | null => rw [mergeConfigs] at h; cases h
  | bool x => rw [mergeConfigs_bool] at h; cases h; exact ⟨_, rfl⟩
  | num x => rw [mergeConfigs_num] at h; cases h; exact ⟨_, rfl⟩
  | str s => rw [mergeConfigs] at h; cases h; exact ⟨_, rfl⟩
  | arr xs =>
    rw [mergeConfigs] at h
    cases hx : mergeArrEntries (jsObjSpread b) 0 xs with
    | error e => rw [hx] at h; cases h
    | ok o => rw [hx] at h; cases h; exact ⟨_, rfl⟩
  | obj fs =>
    rw [mergeConfigs] at h
    cases hx : mergeEntries (jsObjSpread b) fs with
    | error e => rw [hx] at h; cases h
    | ok o => rw [hx] at h; cases h; exact ⟨_, rfl⟩

/-- C9: for `svelte` with `useTypeScript = true`, whatever the other
options, the existing configuration, and `package.json`: `generateConfig`
invokes the svelte rule function without its `useTypeScript` argument, so
the per-`*.svelte` override's nested `parserOptions.parser` is `espree`
(never `@typescript-eslint/parser`), and the later generic TypeScript
step sets the document-wide parser to `@typescript-eslint/parser`,
replacing the `svelte-eslint-parser` value the svelte rule function had
set. -/
theorem C9_svelte_parsers (useStrict usePrettier : Bool)
    (pkg existing cfg : JVal)
    (h : generateConfig "svelte" true useStrict usePrettier pkg existing = .ok cfg) :
    getF cfg "parser" = some (.str "@typescript-eslint/parser") ∧
    getF cfg "overrides" = some (.arr [.obj
      [("files", .arr [.str "*.svelte"]),
       ("parser", .str "svelte-eslint-parser"),
       ("parserOptions", .obj [("parser", .str "espree")])]]) := by
  rw [generateConfig] at h
  cases hm : mergeConfigs (baseEslintConfig "svelte" useStrict pkg) existing with
  | error e => rw [hm] at h; cases h
  | ok merged =>
    obtain ⟨ms, rfl⟩ := mergeConfigs_ok_obj hm
    rw [hm] at h
    simp [configureSvelte, setF, getF, spreadField, setKeys, List.foldl,
      jsObjSpreadOpt, jsObjSpread, Option.getD, configureTypeScript, appendField,
      iterSpreadOrEmpty, iterSpread, truthy, lookup_setKey, configurePrettier] at h
    cases usePrettier
    · simp only [Bool.false_eq_true, if_false] at h
      cases h
      constructor
      · simp [getF, lookup_setKey]
      · simp [getF, lookup_setKey]
    · simp only [if_true] at h
      cases h
      constructor
      · simp [getF, lookup_setKey]
      · simp [getF, lookup_setKey]

/-- C9 witness: a fresh svelte + TypeScript configuration. -/
theorem C9_witness :
    ∃ cfg, generateConfig "svelte" true false false (.obj []) (.obj []) = .ok cfg ∧
      getF cfg "parser" = some (.str "@typescript-eslint/parser") ∧
      getF cfg "overrides" = some (.arr [.obj
        [("files", .arr [.str "*.svelte"]),
         ("parser", .str "svelte-eslint-parser"),
         ("parserOptions", .obj [("parser", .str "espree")])]]) := by
  have hex : ∃ cfg, generateConfig "svelte" true false false (.obj []) (.obj []) =
      .ok cfg := by
    simp [generateConfig, mergeConfigs, mergeEntries, baseEslintConfig, baseRules,
      jsObjSpread, configureSvelte, setF, getF, spreadField, setKeys, List.foldl,
      jsObjSpreadOpt, Option.getD, configureTypeScript, appendField,
      iterSpreadOrEmpty, iterSpread, truthy, lookup_setKey, configurePrettier,
      Except.map, List.lookup, setKey]
  obtain ⟨cfg, hc⟩ := hex
  exact ⟨cfg, hc, C9_svelte_parsers false false (.obj []) (.obj []) cfg hc⟩

/-! ## Claim C2 amended: extends tracking through the pipeline

`typeExtendsList` and `extendsAdditions` summarise, per project type, the
`extends` entries the rule pipeline appends after the merge (read off the
configure functions above); the tracking theorems prove that summary
against the pipeline.  -/

theorem appendField_ok_cases {ms : List (String × JVal)} {k : String}
    {lits : List JVal} {c' : JVal}
    (h : appendField (.obj ms) k lits = .ok c') :
    ∃ cur, iterSpreadOrEmpty (List.lookup k ms) = .ok cur ∧
      c' = .obj (setKey ms k (.arr (cur ++ lits))) := by
  rw [appendField] at h
  cases hsp : iterSpreadOrEmpty (getF (.obj ms) k) with
  | error e => rw [hsp] at h; cases h
  | ok cur =>
    rw [hsp] at h
    cases h
    exact ⟨cur, hsp, rfl⟩

theorem setInner_ok_cases {ms : List (String × JVal)} {outer inner : String}
    {v c' : JVal} (h : setInner (.obj ms) outer inner v = .ok c') :
    ∃ ms', c' = .obj ms' ∧
      ∀ k, k ≠ outer → List.lookup k ms' = List.lookup k ms := by
  rw [setInner] at h
  cases hlo : getF (.obj ms) outer with
  | none => rw [hlo] at h; cases h
  | some w =>
    rw [hlo] at h
    cases w with
    | null => cases h
    | obj fs =>
      cases h
      exact ⟨_, rfl, fun k hk => by simp [setF, lookup_setKey, hk]⟩
    | bool b => cases h; exact ⟨ms, rfl, fun k _ => rfl⟩
    | num n => cases h; exact ⟨ms, rfl, fun k _ => rfl⟩
    | str s => cases h; exact ⟨ms, rfl, fun k _ => rfl⟩
    | arr xs => cases h; exact ⟨ms, rfl, fun k _ => rfl⟩

theorem configureNextjs_extends {ms : List (String × JVal)} {c' : JVal}
    {l : List JVal}
    (hs : iterSpreadOrEmpty (List.lookup "extends" ms) = .ok l)
    (h : configureNextjs (.obj ms) = .ok c') :
    ∃ ms', c' = .obj ms' ∧
      List.lookup "extends" ms' = some (.arr (l ++ [.str "next/core-web-vitals"])) := by
  rw [configureNextjs] at h
  obtain ⟨cur, hcur, rfl⟩ := appendField_ok_cases h
  rw [hs] at hcur
  cases hcur
  exact ⟨_, rfl, by simp [lookup_setKey]⟩

theorem configureNodejs_extends {ms : List (String × JVal)} {c' : JVal}
    {l : List JVal}
    (hs : iterSpreadOrEmpty (List.lookup "extends" ms) = .ok l)
    (h : configureNodejs (.obj ms) = .ok c') :
    ∃ ms', c' = .obj ms' ∧
      List.lookup "extends" ms' = some (.arr (l ++ [.str "plugin:node/recommended"])) := by
  have h1 : appendField (.obj ms) "extends" [.str "plugin:node/recommended"] =
      .ok (.obj (setKey ms "extends" (.arr (l ++ [.str "plugin:node/recommended"])))) := by
    simp [appendField, getF, hs, setF]
  rw [configureNodejs, h1] at h
  try dsimp only at h
  cases h2 : appendField (.obj (setKey ms "extends"
      (.arr (l ++ [.str "plugin:node/recommended"])))) "plugins" [.str "node"] with
  | error e => rw [h2] at h; cases h
  | ok c2 =>
    rw [h2] at h
    obtain ⟨cur2, hcur2, rfl⟩ := appendField_ok_cases h2
    cases h
    refine ⟨_, rfl, ?_⟩
    simp [spreadField, setF, getF, lookup_setKey]

theorem configureVue_extends {ms : List (String × JVal)} {c' : JVal}
    {l : List JVal}
    (hs : iterSpreadOrEmpty (List.lookup "extends" ms) = .ok l)
    (h : configureVue (.obj ms) = .ok c') :
    ∃ ms', c' = .obj ms' ∧
      List.lookup "extends" ms' =
        some (.arr (l ++ [.str "plugin:vue/vue3-recommended"])) := by
  have h1 : appendField (.obj ms) "extends" [.str "plugin:vue/vue3-recommended"] =
      .ok (.obj (setKey ms "extends" (.arr (l ++ [.str "plugin:vue/vue3-recommended"])))) := by
    simp [appendField, getF, hs, setF]
  rw [configureVue, h1] at h
  try dsimp only at h
  cases h2 : appendField (.obj (setKey ms "extends"
      (.arr (l ++ [.str "plugin:vue/vue3-recommended"])))) "plugins" [.str "vue"] with
  | error e => rw [h2] at h; cases h
  | ok c2 =>
    rw [h2] at h
    obtain ⟨cur2, hcur2, rfl⟩ := appendField_ok_cases h2
    cases h
    refine ⟨_, rfl, ?_⟩
    simp [setF, lookup_setKey]

theorem configureAngular_extends {ms : List (String × JVal)} {c' : JVal}
    {l : List JVal}
    (hs : iterSpreadOrEmpty (List.lookup "extends" ms) = .ok l)
    (h : configureAngular (.obj ms) = .ok c') :
    ∃ ms', c' = .obj ms' ∧
      List.lookup "extends" ms' = some (.arr (l ++
        [.str "plugin:@angular-eslint/recommended",
         .str "plugin:@angular-eslint/template/process-inline-templates"])) := by
  have h1 : appendField (.obj ms) "extends"
      [.str "plugin:@angular-eslint/recommended",
       .str "plugin:@angular-eslint/template/process-inline-templates"] =
      .ok (.obj (setKey ms "extends" (.arr (l ++
        [.str "plugin:@angular-eslint/recommended",
         .str "plugin:@angular-eslint/template/process-inline-templates"])))) := by
    simp [appendField, getF, hs, setF]
  rw [configureAngular, h1] at h
  try dsimp only at h
  obtain ⟨cur2, hcur2, rfl⟩ := appendField_ok_cases h
  refine ⟨_, rfl, ?_⟩
  simp [lookup_setKey]

theorem configureReact_extends {ms : List (String × JVal)} {ts : Bool} {c' : JVal}
    {l : List JVal}
    (hs : iterSpreadOrEmpty (List.lookup "extends" ms) = .ok l)
    (h : configureReact (.obj ms) ts = .ok c') :
    ∃ ms', c' = .obj ms' ∧
      List.lookup "extends" ms' = some (.arr (l ++
        [.str "plugin:react/recommended", .str "plugin:react/jsx-runtime",
         .str "plugin:react-hooks/recommended", .str "plugin:jsx-a11y/recommended",
         .str "plugin:import/errors", .str "plugin:import/warnings"])) := by
  have h1 : appendField (.obj ms) "extends"
      [.str "plugin:react/recommended", .str "plugin:react/jsx-runtime",
       .str "plugin:react-hooks/recommended", .str "plugin:jsx-a11y/recommended",
       .str "plugin:import/errors", .str "plugin:import/warnings"] =
      .ok (.obj (setKey ms "extends" (.arr (l ++
        [.str "plugin:react/recommended", .str "plugin:react/jsx-runtime",
         .str "plugin:react-hooks/recommended", .str "plugin:jsx-a11y/recommended",
         .str "plugin:import/errors", .str "plugin:import/warnings"])))) := by
    simp [appendField, getF, hs, setF]
  rw [configureReact, h1] at h
  try dsimp only at h
  cases h2 : appendField (.obj (setKey ms "extends" (.arr (l ++
      [.str "plugin:react/recommended", .str "plugin:react/jsx-runtime",
       .str "plugin:react-hooks/recommended", .str "plugin:jsx-a11y/recommended",
       .str "plugin:import/errors", .str "plugin:import/warnings"]))))
      "plugins" [.str "react", .str "react-hooks", .str "jsx-a11y", .str "import"] with
  | error e => rw [h2] at h; cases h
  | ok c2 =>
    rw [h2] at h
    obtain ⟨cur2, hcur2, rfl⟩ := appendField_ok_cases h2
    simp only [spreadField, setF, getF] at h
    cases ts with
    | false =>
      simp only [Bool.false_eq_true, if_false] at h
      cases h
      refine ⟨_, rfl, ?_⟩
      simp [lookup_setKey]
    | true =>
      simp only [if_true] at h
      obtain ⟨ms', rfl, hpres⟩ := setInner_ok_cases h
      refine ⟨ms', rfl, ?_⟩
      rw [hpres "extends" (by decide)]
      simp [lookup_setKey]

theorem configureTypeScript_extends {ms : List (String × JVal)} {c' : JVal}
    {l : List JVal}
    (hs : iterSpreadOrEmpty (List.lookup "extends" ms) = .ok l)
    (h : configureTypeScript (.obj ms) = .ok c') :
    ∃ ms', c' = .obj ms' ∧
      List.lookup "extends" ms' =
        some (.arr (l ++ [.str "plugin:@typescript-eslint/recommended"])) := by
  rw [configureTypeScript] at h
  try dsimp only at h
  simp only [setF] at h
  cases h2 : appendField (.obj (setKey ms "parser" (.str "@typescript-eslint/parser")))
      "plugins" [.str "@typescript-eslint"] with
  | error e => rw [h2] at h; cases h
  | ok c2 =>
    rw [h2] at h
    obtain ⟨cur2, hcur2, rfl⟩ := appendField_ok_cases h2
    try dsimp only at h
    cases h3 : appendField (.obj (setKey (setKey ms "parser"
        (.str "@typescript-eslint/parser")) "plugins"
        (.arr (cur2 ++ [.str "@typescript-eslint"]))))
        "extends" [.str "plugin:@typescript-eslint/recommended"] with
    | error e => rw [h3] at h; cases h
    | ok c3 =>
      rw [h3] at h
      obtain ⟨cur3, hcur3, rfl⟩ := appendField_ok_cases h3
      have hc3 : cur3 = l := by
        rw [lookup_setKey, if_neg (by decide), lookup_setKey, if_neg (by decide),
          hs] at hcur3
        cases hcur3
        rfl
      subst hc3
      cases h
      refine ⟨_, rfl, ?_⟩
      simp [spreadField, setF, getF, lookup_setKey]

theorem configurePrettier_extends {ms : List (String × JVal)} {c' : JVal}
    {l : List JVal}
    (hs : iterSpreadOrEmpty (List.lookup "extends" ms) = .ok l)
    (h : configurePrettier (.obj ms) = .ok c') :
    ∃ ms', c' = .obj ms' ∧
      List.lookup "extends" ms' =
        some (.arr (l ++ [.str "plugin:prettier/recommended"])) := by
  have h1 : appendField (.obj ms) "extends" [.str "plugin:prettier/recommended"] =
      .ok (.obj (setKey ms "extends" (.arr (l ++ [.str "plugin:prettier/recommended"])))) := by
    simp [appendField, getF, hs, setF]
  rw [configurePrettier, h1] at h
  try dsimp only at h
  cases h
  refine ⟨_, rfl, ?_⟩
  simp [spreadField, setF, getF, lookup_setKey]


def typeExtendsList : String → List JVal
  | "nextjs" => [.str "next/core-web-vitals"]
  | "react" => [.str "plugin:react/recommended", .str "plugin:react/jsx-runtime",
      .str "plugin:react-hooks/recommended", .str "plugin:jsx-a11y/recommended",
      .str "plugin:import/errors", .str "plugin:import/warnings"]
  | "nodejs" => [.str "plugin:node/recommended"]
  | "angular" => [.str "plugin:@angular-eslint/recommended",
      .str "plugin:@angular-eslint/template/process-inline-templates"]
  | "vue" => [.str "plugin:vue/vue3-recommended"]
  | _ => []

def extendsAdditions (t : String) (ts prettier : Bool) : List JVal :=
  typeExtendsList t ++
  (if ts ∧ t ≠ "nextjs" then [.str "plugin:@typescript-eslint/recommended"] else []) ++
  (if prettier then [.str "plugin:prettier/recommended"] else [])

theorem prettierTail_track {prettier : Bool} {ms1 : List (String × JVal)} {cfg : JVal}
    {w : List JVal}
    (hext : List.lookup "extends" ms1 = some (.arr w))
    (h : (if prettier = true then configurePrettier (.obj ms1) else .ok (.obj ms1)) = .ok cfg) :
    getF cfg "extends" =
      some (.arr (w ++ (if prettier then [.str "plugin:prettier/recommended"] else []))) := by
  cases prettier with
  | false =>
    simp only [Bool.false_eq_true, if_false] at h
    cases h
    simp [getF, hext]
  | true =>
    rw [if_pos rfl] at h
    cases hp : configurePrettier (.obj ms1) with
    | error e => rw [hp] at h; cases h
    | ok c2 =>
      rw [hp] at h
      cases h
      have hw : iterSpreadOrEmpty (List.lookup "extends" ms1) = .ok w := by
        rw [hext]; simp [iterSpreadOrEmpty, truthy, iterSpread]
      obtain ⟨ms2, rfl, hext2⟩ := configurePrettier_extends hw hp
      simp [getF, hext2]

theorem tsPrettierTail_track {ts prettier : Bool} {ms1 : List (String × JVal)}
    {cfg : JVal} {w : List JVal}
    (hext : List.lookup "extends" ms1 = some (.arr w))
    (h : (match if ts = true then configureTypeScript (.obj ms1)
            else Except.ok (.obj ms1) with
          | Except.error e => Except.error e
          | Except.ok withTs =>
              if prettier = true then configurePrettier withTs
              else Except.ok withTs) = .ok cfg) :
    getF cfg "extends" = some (.arr
      ((w ++ (if ts then [.str "plugin:@typescript-eslint/recommended"] else [])) ++
        (if prettier then [.str "plugin:prettier/recommended"] else []))) := by
  cases ts with
  | false =>
    simp only [Bool.false_eq_true, if_false] at h
    try dsimp only at h
    have hr := prettierTail_track hext h
    simpa using hr
  | true =>
    rw [if_pos rfl] at h
    cases hts : configureTypeScript (.obj ms1) with
    | error e => rw [hts] at h; cases h
    | ok c2 =>
      rw [hts] at h
      try dsimp only at h
      have hw : iterSpreadOrEmpty (List.lookup "extends" ms1) = .ok w := by
        rw [hext]; simp [iterSpreadOrEmpty, truthy, iterSpread]
      obtain ⟨ms2, rfl, hext2⟩ := configureTypeScript_extends hw hts
      have hr := prettierTail_track hext2 h
      simpa using hr

theorem generateConfig_extends_track (t : String)
    (htmem : t ∈ ["nextjs", "react", "nodejs", "angular", "vue"])
    (ts strict prettier : Bool) (pkg existing cfg : JVal)
    (ms : List (String × JVal)) (l : List JVal)
    (h : generateConfig t ts strict prettier pkg existing = .ok cfg)
    (hm : mergeConfigs (baseEslintConfig t strict pkg) existing = .ok (.obj ms))
    (hs : iterSpreadOrEmpty (List.lookup "extends" ms) = .ok l) :
    getF cfg "extends" = some (.arr (l ++ extendsAdditions t ts prettier)) := by
  fin_cases htmem
  · -- nextjs
    rw [generateConfig, hm] at h
    try dsimp only at h
    simp only [String.reduceEq, reduceIte, ne_eq, not_true, and_false, if_false] at h
    cases hc : configureNextjs (.obj ms) with
    | error e => rw [hc] at h; cases h
    | ok c1 =>
      rw [hc] at h
      try dsimp only at h
      obtain ⟨ms1, rfl, hext1⟩ := configureNextjs_extends hs hc
      have hr := prettierTail_track hext1 h
      simpa [extendsAdditions, typeExtendsList, List.append_assoc] using hr
  · -- react
    rw [generateConfig, hm] at h
    try dsimp only at h
    simp only [String.reduceEq, reduceIte, ne_eq, not_false_eq_true, and_true] at h
    cases hc : configureReact (.obj ms) ts with
    | error e => rw [hc] at h; cases h
    | ok c1 =>
      rw [hc] at h
      try dsimp only at h
      obtain ⟨ms1, rfl, hext1⟩ := configureReact_extends hs hc
      have hr := tsPrettierTail_track hext1 h
      simpa [extendsAdditions, typeExtendsList, List.append_assoc] using hr
  · -- nodejs
    rw [generateConfig, hm] at h
    try dsimp only at h
    simp only [String.reduceEq, reduceIte, ne_eq, not_false_eq_true, and_true] at h
    cases hc : configureNodejs (.obj ms) with
    | error e => rw [hc] at h; cases h
    | ok c1 =>
      rw [hc] at h
      try dsimp only at h
      obtain ⟨ms1, rfl, hext1⟩ := configureNodejs_extends hs hc
      have hr := tsPrettierTail_track hext1 h
      simpa [extendsAdditions, typeExtendsList, List.append_assoc] using hr
  · -- angular
    rw [generateConfig, hm] at h
    try dsimp only at h
    simp only [String.reduceEq, reduceIte, ne_eq, not_false_eq_true, and_true] at h
    cases hc : configureAngular (.obj ms) with
    | error e => rw [hc] at h; cases h
    | ok c1 =>
      rw [hc] at h
      try dsimp only at h
      obtain ⟨ms1, rfl, hext1⟩ := configureAngular_extends hs hc
      have hr := tsPrettierTail_track hext1 h
      simpa [extendsAdditions, typeExtendsList, List.append_assoc] using hr
  · -- vue
    rw [generateConfig, hm] at h
    try dsimp only at h
    simp only [String.reduceEq, reduceIte, ne_eq, not_false_eq_true, and_true] at h
    cases hc : configureVue (.obj ms) with
    | error e => rw [hc] at h; cases h
    | ok c1 =>
      rw [hc] at h
      try dsimp only at h
      obtain ⟨ms1, rfl, hext1⟩ := configureVue_extends hs hc
      have hr := tsPrettierTail_track hext1 h
      simpa [extendsAdditions, typeExtendsList, List.append_assoc] using hr


/-- C2 amended: for every project type OTHER THAN svelte (whose rule
function replaces `extends` wholesale), when the user declines to
overwrite an existing configuration whose `extends` is a sequence, the
final document's `extends` contains every element of the existing
`extends` and every element the freshly generated configuration
contributes. -/
theorem C2_amended (t : String)
    (htmem : t ∈ ["nextjs", "react", "nodejs", "angular", "vue"])
    (ts strict prettier : Bool) (pkg cfg fcfg : JVal)
    (efs : List (String × JVal)) (exl frl : List JVal)
    (hnd : (efs.map Prod.fst).Nodup)
    (hex : List.lookup "extends" efs = some (.arr exl))
    (h : generateConfig t ts strict prettier pkg (.obj efs) = .ok cfg)
    (hf : generateConfig t ts strict prettier pkg (.obj []) = .ok fcfg)
    (hfl : getF fcfg "extends" = some (.arr frl)) :
    ∃ out, getF cfg "extends" = some (.arr out) ∧
      (∀ x ∈ exl, x ∈ out) ∧ (∀ x ∈ frl, x ∈ out) := by
  have hbase : List.lookup "extends"
      (jsObjSpread (baseEslintConfig t strict pkg)) = none := by
    simp [baseEslintConfig, jsObjSpread, List.lookup]
  have hmf : mergeConfigs (baseEslintConfig t strict pkg) (.obj []) =
      .ok (.obj (jsObjSpread (baseEslintConfig t strict pkg))) := by
    rw [mergeConfigs, mergeEntries_nil]
    rfl
  have hsf : iterSpreadOrEmpty (List.lookup "extends"
      (jsObjSpread (baseEslintConfig t strict pkg))) = .ok [] := by
    rw [hbase]
    rfl
  have hfr := generateConfig_extends_track t htmem ts strict prettier pkg
    (.obj []) fcfg _ [] hf hmf hsf
  rw [hfl] at hfr
  have hfrl : frl = extendsAdditions t ts prettier := by
    simpa using hfr
  cases he : mergeEntries (jsObjSpread (baseEslintConfig t strict pkg)) efs with
  | error e =>
    rw [generateConfig, mergeConfigs, he] at h
    try dsimp only at h
    cases h
  | ok ms =>
    have hm : mergeConfigs (baseEslintConfig t strict pkg) (.obj efs) =
        .ok (.obj ms) := by
      rw [mergeConfigs, he]
      rfl
    obtain ⟨cur, hcur, hml⟩ := mergeEntries_lookup_arr _ _ _ he hnd "extends" exl hex
    rw [hbase] at hcur
    have hcur0 : cur = [] := by
      simpa [iterSpreadOrEmpty] using hcur
    subst hcur0
    rw [List.nil_append] at hml
    have hsr : iterSpreadOrEmpty (List.lookup "extends" ms) = .ok (jsDedup exl) := by
      rw [hml]
      rfl
    have hre := generateConfig_extends_track t htmem ts strict prettier pkg
      (.obj efs) cfg ms (jsDedup exl) h hm hsr
    refine ⟨jsDedup exl ++ extendsAdditions t ts prettier, hre, ?_, ?_⟩
    · intro x hx
      simp only [List.mem_append, mem_jsDedup]
      exact Or.inl hx
    · intro x hx
      rw [hfrl] at hx
      simp only [List.mem_append]
      exact Or.inr hx

theorem C2_amended_witness :
    ∃ cfg fcfg frl,
      generateConfig "nodejs" false false false (.obj [])
        (.obj [("extends", .arr [.str "my-shared-config"])]) = .ok cfg ∧
      generateConfig "nodejs" false false false (.obj []) (.obj []) = .ok fcfg ∧
      getF fcfg "extends" = some (.arr frl) ∧
      (∃ out, getF cfg "extends" = some (.arr out) ∧
        (∀ x ∈ [JVal.str "my-shared-config"], x ∈ out) ∧
        (∀ x ∈ frl, x ∈ out)) := by
  obtain ⟨cfg, h⟩ : ∃ cfg, generateConfig "nodejs" false false false (.obj [])
      (.obj [("extends", .arr [.str "my-shared-config"])]) = .ok cfg := by
    simp [generateConfig, mergeConfigs, mergeEntries, baseEslintConfig, baseRules,
      jsObjSpread, configureNodejs, appendField, getF, iterSpreadOrEmpty,
      iterSpread, truthy, spreadField, setKeys, List.foldl, jsObjSpreadOpt,
      jsDedup, setF, Except.map, List.lookup, setKey]
  obtain ⟨fcfg, hf⟩ : ∃ fcfg, generateConfig "nodejs" false false false (.obj [])
      (.obj []) = .ok fcfg := by
    simp [generateConfig, mergeConfigs, mergeEntries, baseEslintConfig, baseRules,
      jsObjSpread, configureNodejs, appendField, getF, iterSpreadOrEmpty,
      iterSpread, truthy, spreadField, setKeys, List.foldl, jsObjSpreadOpt,
      jsDedup, setF, Except.map, List.lookup, setKey]
  have hf2 := hf
  simp [generateConfig, mergeConfigs, mergeEntries, baseEslintConfig, baseRules,
    jsObjSpread, configureNodejs, appendField, getF, iterSpreadOrEmpty,
    iterSpread, truthy, spreadField, setKeys, List.foldl, jsObjSpreadOpt,
    jsDedup, setF, Except.map, List.lookup, setKey] at hf2
  obtain ⟨frl, hfl⟩ : ∃ frl, getF fcfg "extends" = some (.arr frl) := by
    rw [← hf2]
    simp [getF, List.lookup]
  exact ⟨cfg, fcfg, frl, h, hf, hfl,
    C2_amended "nodejs" (by simp) false false false (.obj []) cfg fcfg
      [("extends", .arr [.str "my-shared-config"])] [.str "my-shared-config"] frl
      (by simp) rfl h hf hfl⟩

/-! ## Claim C10 counterexample -/

/-- C10 amended: the `package.json` update step changes only `scripts`
(and `lint-staged` when the hook manager is enabled); every other
pre-existing top-level field is carried through unchanged; every
pre-existing `scripts` entry other than `lint`/`lint:fix`/`format` is
preserved; and for non-svelte project types pre-existing TRUTHY
(non-empty) `lint`, `lint:fix` and `format` values are kept rather than
overwritten (a falsy value such as the empty string is replaced by the
default). -/
theorem C10_amended (t : String) (usePrettier useHusky : Bool)
    (ps ss : List (String × JVal))
    (ht : t ≠ "svelte")
    (hss : List.lookup "scripts" ps = some (.obj ss)) :
    (∀ k, k ≠ "scripts" → k ≠ "lint-staged" →
      getF (updatedPackageJson t usePrettier useHusky (.obj ps)) k =
        List.lookup k ps) ∧
    (∃ ss', getF (updatedPackageJson t usePrettier useHusky (.obj ps)) "scripts" =
        some (.obj ss') ∧
      (∀ k, k ≠ "lint" → k ≠ "lint:fix" → k ≠ "format" →
        List.lookup k ss' = List.lookup k ss) ∧
      (∀ v, List.lookup "lint" ss = some v → truthy v = true →
        List.lookup "lint" ss' = some v) ∧
      (∀ v, List.lookup "lint:fix" ss = some v → truthy v = true →
        List.lookup "lint:fix" ss' = some v) ∧
      (∀ v, List.lookup "format" ss = some v → truthy v = true →
        List.lookup "format" ss' = some v)) := by
  constructor
  · intro k hk1 hk2
    cases useHusky <;>
      simp [updatedPackageJson, packageJsonUpdates, setKeys, List.foldl, getF,
        jsObjSpread, lookup_setKey, hk1, hk2]
  · refine ⟨scriptsUpdate t usePrettier (.obj ps), ?_, ?_, ?_, ?_, ?_⟩
    · cases useHusky <;>
        simp [updatedPackageJson, packageJsonUpdates, setKeys, List.foldl, getF,
          jsObjSpread, lookup_setKey]
    · intro k h1 h2 h3
      simp only [scriptsUpdate, getF, hss, jsObjSpreadOpt, jsObjSpread, if_neg ht]
      cases usePrettier <;>
        simp [setKeys, List.foldl, lookup_setKey, h1, h2, h3]
    · intro v hv htr
      simp only [scriptsUpdate, getF, hss, jsObjSpreadOpt, jsObjSpread, if_neg ht]
      cases usePrettier <;>
        simp [setKeys, List.foldl, lookup_setKey, pkgScript, getF, hss, hv,
          jsOr, htr]
    · intro v hv htr
      simp only [scriptsUpdate, getF, hss, jsObjSpreadOpt, jsObjSpread, if_neg ht]
      cases usePrettier <;>
        simp [setKeys, List.foldl, lookup_setKey, pkgScript, getF, hss, hv,
          jsOr, htr]
    · intro v hv htr
      simp only [scriptsUpdate, getF, hss, jsObjSpreadOpt, jsObjSpread, if_neg ht]
      cases usePrettier <;>
        simp [setKeys, List.foldl, lookup_setKey, pkgScript, getF, hss, hv,
          jsOr, htr]

/-- C10 amended witness: a react project with a pre-existing truthy
`lint` script and an unrelated `test` script and `name` field. -/
theorem C10_amended_witness :
    getF (updatedPackageJson "react" true true
        (.obj [("name", .str "x"),
               ("scripts", .obj [("lint", .str "mylint"),
                                 ("test", .str "jest")])])) "name" =
      List.lookup "name"
        [("name", JVal.str "x"),
         ("scripts", JVal.obj [("lint", .str "mylint"), ("test", .str "jest")])] ∧
    (∃ ss', getF (updatedPackageJson "react" true true
        (.obj [("name", .str "x"),
               ("scripts", .obj [("lint", .str "mylint"),
                                 ("test", .str "jest")])])) "scripts" =
        some (.obj ss') ∧
      List.lookup "test" ss' =
        List.lookup "test" [("lint", JVal.str "mylint"), ("test", JVal.str "jest")] ∧
      List.lookup "lint" ss' = some (.str "mylint")) := by
  have h := C10_amended "react" true true
    [("name", .str "x"),
     ("scripts", .obj [("lint", .str "mylint"), ("test", .str "jest")])]
    [("lint", .str "mylint"), ("test", .str "jest")] (by decide) rfl
  refine ⟨h.1 "name" (by decide) (by decide), ?_⟩
  obtain ⟨ss', hs, hother, hlint, _, _⟩ := h.2
  exact ⟨ss', hs, hother "test" (by decide) (by decide) (by decide),
    hlint (.str "mylint") rfl (by decide)⟩

/-- C10 counterexample: a pre-existing `scripts.lint` whose value is the
empty string (falsy) is NOT kept: it is overwritten with the default
`'eslint .'`. -/
theorem C10_counterexample :
    (getF (updatedPackageJson "react" true false
        (.obj [("scripts", .obj [("lint", .str "")])])) "scripts").bind
      (fun s => getF s "lint") = some (.str "eslint .") ∧
    JVal.str "eslint ." ≠ JVal.str "" := by
  exact ⟨rfl, by simp⟩

end CodePolish
